import Mathlib

/-!
Shallow embedding of the job-completion tracking core of NESUPixel
(src/core/comfy_api.py, with its consumers in src/modes/txt2img.py and
src/modes/inpaint.py).

JSON values delivered by the server (history bodies, websocket text
frames) are modelled by the inductive type `Json`.  Python dictionary
operations used by the source (`d.get(k)`, `d.get(k, default)`,
`x in d`, `d[k]`, truthiness, `== 0`) are modelled by helpers that
return `Option` results: `none` models the Python call raising an
exception (AttributeError / TypeError / KeyError), which the source
catches with its `try/except` blocks.

HTTP calls are modelled by an `HttpResult` value handed to the embedded
function: either a transport failure (a raised `requests` exception) or
a response with a status code and a JSON body.
-/

inductive Json where
  | null : Json
  | bool (b : Bool) : Json
  | num (n : Int) : Json
  | str (s : String) : Json
  | arr (xs : List Json) : Json
  | obj (fields : List (String × Json)) : Json

/-- Python `j == s` for a string literal `s` : true exactly when `j` is
the same string; comparisons across types are unequal, never raising. -/
def Json.pyStrEq : Json → String → Bool
  | .str t, s => decide (t = s)
  | _, _ => false

/-- First-match lookup in an association list of JSON object fields
(JSON objects parsed by `json.loads` have unique keys). -/
def lookupField : List (String × Json) → String → Option Json
  | [], _ => none
  | (k, v) :: rest, key => if k = key then some v else lookupField rest key

/-- Python `d[k] = v` on a dict: overwrite an existing key, else append. -/
def setEntry {α : Type} : List (String × α) → String → α → List (String × α)
  | [], k, v => [(k, v)]
  | (k0, v0) :: rest, k, v =>
      if k0 = k then (k, v) :: rest else (k0, v0) :: setEntry rest k v

/-- Python `j.get(k)` : returns the field (with Python `None` as
`Json.null` when the key is missing); raises AttributeError (`none`)
when `j` is not a dict. -/
def Json.pyGet : Json → String → Option Json
  | .obj fields, k => some ((lookupField fields k).getD Json.null)
  | _, _ => none

/-- Python `j.get(k, default)` : returns the field or the default;
raises AttributeError (`none`) when `j` is not a dict. -/
def Json.pyGetD : Json → String → Json → Option Json
  | .obj fields, k, d => some ((lookupField fields k).getD d)
  | _, _, _ => none

/-- Python truthiness of a JSON value (`if preview_data:`). -/
def Json.truthy : Json → Bool
  | .null => false
  | .bool b => b
  | .num n => decide (n ≠ 0)
  | .str s => !s.isEmpty
  | .arr xs => !xs.isEmpty
  | .obj fields => !fields.isEmpty

/-- Python `j == n` for an integer literal `n` (Python booleans compare
equal to 0 and 1; other JSON shapes compare unequal, never raising). -/
def Json.pyIntEq : Json → Int → Bool
  | .num m, n => decide (m = n)
  | .bool b, n => decide ((if b then (1 : Int) else 0) = n)
  | _, _ => false

/-- Bool-valued substring test, modelling Python `needle in haystack`
for strings. -/
def strSubstring (haystack needle : String) : Bool :=
  (List.range (haystack.length + 1)).any
    (fun i => needle.toList.isPrefixOf (haystack.toList.drop i))

/-- Python `s in container` for a string `s` and a JSON container:
list membership, dict key membership, substring test on strings;
raises TypeError (`none`) on other shapes. -/
def jsonContainsStr : Json → String → Option Bool
  | .arr xs, s => some (xs.any (fun x => x.pyStrEq s))
  | .obj fields, s => some (fields.any (fun p => p.1 = s))
  | .str t, s => some (strSubstring t s)
  | _, _ => none

/-- Python `container[s]` for a string key: dict lookup (KeyError when
missing); raises TypeError (`none`) on non-dict shapes. -/
def jsonSubscriptStr : Json → String → Option Json
  | .obj fields, s => lookupField fields s
  | _, _ => none

/-- Python `all(n in container for n in watch)` : vacuously true on an
empty watch list (the generator is never advanced, so nothing can
raise); otherwise the containment test runs and may raise TypeError. -/
def allWatchedIn (watch : List String) (container : Json) : Option Bool :=
  match watch with
  | [] => some true
  | _ :: _ =>
      match container with
      | .arr xs => some (watch.all (fun n => xs.any (fun x => x.pyStrEq n)))
      | .obj fields => some (watch.all (fun n => fields.any (fun p => p.1 = n)))
      | .str t => some (watch.all (fun n => strSubstring t n))
      | _ => none

/-- An HTTP interaction as seen by the embedded client code: a raised
transport exception, or a response carrying a status code and a parsed
JSON body. -/
inductive HttpResult where
  | failure (msg : String) : HttpResult
  | success (status : Nat) (body : Json) : HttpResult

/-!
`get_node_outputs_from_history` (src/core/comfy_api.py lines 42-142).
The whole body sits in one `try/except` that returns `{}` on any raised
exception; a non-200 status also returns `{}`.  The success path reads
`data.get(prompt_id, {})`, then `.get("outputs", {})`, then copies
`outputs[node_id]` for every requested `node_id` present in `outputs`.
-/

/-- One iteration of the copying loop of lines 134-136: when `node_id`
is in `outputs`, copy `outputs[node_id]` into the result dict. -/
def historyStep (outputs : Json) (result : List (String × Json))
    (node_id : String) : Option (List (String × Json)) := do
  let mem ← jsonContainsStr outputs node_id
  if mem then
    let v ← jsonSubscriptStr outputs node_id
    pure (setEntry result node_id v)
  else
    pure result

/-- The try-block body of `get_node_outputs_from_history` once a 200
response with JSON body `body` is in hand; `none` models an exception
raised inside the block (caught by the except clause, yielding `{}`). -/
def historyTryBody (prompt_id : String) (node_ids : List String) (body : Json) :
    Option (List (String × Json)) := do
  let prompt_data ← body.pyGetD prompt_id (Json.obj [])
  let outputs ← prompt_data.pyGetD "outputs" (Json.obj [])
  node_ids.foldlM (historyStep outputs) []

/-- Embedding of `get_node_outputs_from_history(prompt_id, node_ids)`
against one HTTP interaction with `GET /history/{prompt_id}`. -/
def get_node_outputs_from_history (prompt_id : String) (node_ids : List String)
    (resp : HttpResult) : List (String × Json) :=
  match resp with
  | .failure _ => []
  | .success status body =>
      if status ≠ 200 then []
      else (historyTryBody prompt_id node_ids body).getD []

/-- Embedding of `interrupt()` (src/core/comfy_api.py lines 34-40)
against one HTTP interaction with `POST /interrupt` : true exactly when
the status code is 200; a raised exception is caught and yields false. -/
def interrupt (resp : HttpResult) : Bool :=
  match resp with
  | .failure _ => false
  | .success status _ => decide (status = 200)

/-!
The listener of `monitor_until_nodes_ready` (src/core/comfy_api.py
lines 216-362).  Its observable effects are modelled as a trace of
actions: firing the `POST /interrupt` request from `request_interrupt`,
setting the one-shot done event, closing the websocket, and invoking
the preview callback with a byte payload.  The order of actions in the
trace is the order the statements execute in the source.
-/

/-- One observable effect of the listener. -/
inductive WsAction where
  | interruptReq : WsAction
  | setDone : WsAction
  | closeWs : WsAction
  | previewInvoke (payload : List Nat) : WsAction
deriving DecidableEq, Repr

/-- The arguments of `monitor_until_nodes_ready` that the listener
closes over.  `b64decode` models `base64.b64decode` on the JSON preview
path; `none` models it raising (caught by the inner try). -/
structure MonitorConfig where
  prompt_id : String
  watch_node_ids : List String
  interrupt_on_ready : Bool
  hasPreviewCallback : Bool
  b64decode : String → Option (List Nat)

/-- The mutable state the listener shares with the caller thread: the
`received_executed` set and the trace of effects performed so far. -/
structure MonitorState where
  received_executed : List String
  trace : List WsAction
deriving DecidableEq, Repr

/-- Python `set.add` on a set modelled as a duplicate-free list. -/
def insertStr (xs : List String) (s : String) : List String :=
  if xs.contains s then xs else xs ++ [s]

/-- One inbound websocket frame: a binary frame, a text frame whose
`json.loads` fails (raising, caught by the outer except), or a text
frame parsed to a JSON value. -/
inductive WsMessage where
  | binary (bytes : List Nat) : WsMessage
  | malformed (raw : String) : WsMessage
  | text (data : Json) : WsMessage

/-- The actions a completion branch performs: `request_interrupt()`
when configured, then `event.set()`, then `ws.close()`. -/
def completionWsActions (interrupt_on_ready : Bool) : List WsAction :=
  (if interrupt_on_ready then [WsAction.interruptReq] else [])
    ++ [WsAction.setDone, WsAction.closeWs]

namespace MonitorReady

/-- The body of `on_message` for a parsed JSON text frame, mirroring
the type-discriminator chain of src/core/comfy_api.py lines 267-322;
`none` models an exception escaping to the outer except (which logs
and leaves the state unchanged — no branch mutates state before a
possible raise). -/
def handleJson (cfg : MonitorConfig) (st : MonitorState) (data : Json) :
    Option MonitorState := do
  let t ← data.pyGet "type"
  if t.pyStrEq "executed" then
    let d ← data.pyGetD "data" (Json.obj [])
    let pid ← d.pyGet "prompt_id"
    if pid.pyStrEq cfg.prompt_id then
      let node ← d.pyGet "node"
      if cfg.watch_node_ids.any (fun w => node.pyStrEq w) then
        let nodeStr := match node with | .str s => s | _ => ""
        let recd := insertStr st.received_executed nodeStr
        if cfg.watch_node_ids.all (fun n => recd.contains n) then
          pure { received_executed := recd,
                 trace := st.trace ++ completionWsActions cfg.interrupt_on_ready }
        else
          pure { st with received_executed := recd }
      else pure st
    else pure st
  else if t.pyStrEq "execution_cached" then
    let d ← data.pyGetD "data" (Json.obj [])
    let pid ← d.pyGet "prompt_id"
    if pid.pyStrEq cfg.prompt_id then
      let cached ← d.pyGetD "nodes" (Json.arr [])
      let allIn ← allWatchedIn cfg.watch_node_ids cached
      if allIn then
        pure { st with trace := st.trace ++ completionWsActions cfg.interrupt_on_ready }
      else pure st
    else pure st
  else if t.pyStrEq "status" then
    let d ← data.pyGetD "data" (Json.obj [])
    let statusVal ← d.pyGetD "status" (Json.obj [])
    let exec_info ← statusVal.pyGetD "exec_info" (Json.obj [])
    let qr ← exec_info.pyGet "queue_remaining"
    if qr.pyIntEq 0 then
      pure { st with trace := st.trace ++ [WsAction.setDone, WsAction.closeWs] }
    else pure st
  else if t.pyStrEq "preview" then
    if cfg.hasPreviewCallback then
      let inner : Option MonitorState := do
        let dd ← data.pyGetD "data" (Json.obj [])
        let img ← dd.pyGet "image"
        if img.truthy then
          match img with
          | .str s =>
              match cfg.b64decode s with
              | some bin =>
                  pure { st with trace := st.trace ++ [WsAction.previewInvoke bin] }
              | none => none
          | _ => none
        else pure st
      pure (inner.getD st)
    else pure st
  else
    pure st

/-- Embedding of the `on_message` nested in `monitor_until_nodes_ready`
(src/core/comfy_api.py lines 247-325).  A binary frame with a preview
callback configured invokes the callback on `message[8:]` (the callback
invocation is recorded whether or not the callback itself raises, since
the surrounding try catches and only logging follows the call); any
exception elsewhere is caught by the outer except and leaves the state
unchanged. -/
def on_message (cfg : MonitorConfig) (st : MonitorState) (msg : WsMessage) :
    MonitorState :=
  match msg with
  | .binary bytes =>
      if cfg.hasPreviewCallback then
        { st with trace := st.trace ++ [WsAction.previewInvoke (bytes.drop 8)] }
      else st
  | .malformed _ => st
  | .text data => (handleJson cfg st data).getD st

/-- One delivery step of the websocket worker: after `ws.close()` has
run, `run_forever` dispatches no further messages. -/
def step (cfg : MonitorConfig) (st : MonitorState) (msg : WsMessage) :
    MonitorState :=
  if st.trace.contains WsAction.closeWs then st else on_message cfg st msg

/-- The worker thread processing the inbound frames in arrival order,
starting from the initial shared state. -/
def runListener (cfg : MonitorConfig) (msgs : List WsMessage) : MonitorState :=
  msgs.foldl (step cfg) ⟨[], []⟩

end MonitorReady

/-- Embedding of `monitor_until_nodes_ready` (src/core/comfy_api.py
lines 216-362): the listener runs over the frames that arrive before
the wait ends (its effects are the listener state), and the returned
value is always computed by `get_node_outputs_from_history` on the
tracked prompt id and watch set (`return result if result else {}`). -/
def monitor_until_nodes_ready (cfg : MonitorConfig) (msgs : List WsMessage)
    (historyResp : HttpResult) : List (String × Json) :=
  let _listener := MonitorReady.runListener cfg msgs
  let result := get_node_outputs_from_history cfg.prompt_id cfg.watch_node_ids historyResp
  if result.isEmpty then [] else result

/-!
`monitor_websocket_for_node_output` (src/core/comfy_api.py lines
144-212).  Its `on_message` handles only `executed` frames: on the
first frame matching the expected prompt id for a watched node it
stores the flattened list-valued entries of the output payload under
that node, sets the event and closes the socket.  The mutable state is
the `result` dict plus the event and socket status.  Note the source
assigns `result[node_id] = []` before iterating `output_data.items()`,
so a non-dict output payload leaves an empty entry behind when
`.items()` raises (caught by the outer except) without setting the
event.
-/

/-- The extraction loop of lines 192-194: concatenate the values of the
list-valued entries of the output payload in field order, dropping
entries whose values are not lists. -/
def flattenListEntries (fields : List (String × Json)) : List Json :=
  fields.foldl (fun acc p => match p.2 with | .arr xs => acc ++ xs | _ => acc) []

/-- The mutable state of `monitor_websocket_for_node_output` : the
`result` dict, whether `event.set()` ran, whether `ws.close()` ran. -/
structure WsOutState where
  result : List (String × List Json)
  doneSet : Bool
  closed : Bool

namespace MonitorWsOut

/-- The `executed` handling of src/core/comfy_api.py lines 184-196 for
one parsed JSON text frame; every raise point is caught by the outer
except, keeping whatever mutations already happened. -/
def handleText (expected_prompt_id : String) (watch_node_ids : List String)
    (st : WsOutState) (data : Json) : WsOutState :=
  match data.pyGet "type" with
  | none => st
  | some t =>
      if t.pyStrEq "executed" then
        match data.pyGetD "data" (Json.obj []) with
        | none => st
        | some d =>
            match d.pyGet "prompt_id" with
            | none => st
            | some pid =>
                if !pid.pyStrEq expected_prompt_id then st
                else
                  match d.pyGet "node" with
                  | none => st
                  | some node =>
                      if watch_node_ids.any (fun w => node.pyStrEq w) then
                        let nodeStr := match node with | .str s => s | _ => ""
                        match d.pyGetD "output" (Json.obj []) with
                        | none => st
                        | some output_data =>
                            match output_data with
                            | .obj fields =>
                                { st with
                                  result := setEntry st.result nodeStr
                                    (flattenListEntries fields),
                                  doneSet := true, closed := true }
                            | _ =>
                                { st with
                                  result := setEntry st.result nodeStr [] }
                      else st
      else st

/-- One delivery step: after `ws.close()` no further frames are
dispatched; a binary frame or a frame whose `json.loads` raises is
logged and dropped by the except clause. -/
def step (expected_prompt_id : String) (watch_node_ids : List String)
    (st : WsOutState) (msg : WsMessage) : WsOutState :=
  if st.closed then st
  else
    match msg with
    | .binary _ => st
    | .malformed _ => st
    | .text data => handleText expected_prompt_id watch_node_ids st data

/-- The worker thread processing the inbound frames in arrival order. -/
def run (expected_prompt_id : String) (watch_node_ids : List String)
    (msgs : List WsMessage) : WsOutState :=
  msgs.foldl (step expected_prompt_id watch_node_ids) ⟨[], false, false⟩

end MonitorWsOut

/-- Embedding of `monitor_websocket_for_node_output` over the frames
that arrive before the wait ends: `success = event.wait(timeout)` is
whether the event was set by then, and the function returns
`result if success else {}`. -/
def monitor_websocket_for_node_output (expected_prompt_id : String)
    (watch_node_ids : List String) (msgs : List WsMessage) :
    List (String × List Json) :=
  let fin := MonitorWsOut.run expected_prompt_id watch_node_ids msgs
  if fin.doneSet then fin.result else []

/-- The per-node outputs object of the history record inside an HTTP
response, as the source reads it
(`data.get(prompt_id, {}).get("outputs", {})`); `none` when the
response is a transport failure or either read raises. -/
def recordOutputs (resp : HttpResult) (prompt_id : String) : Option Json :=
  match resp with
  | .failure _ => none
  | .success _ body => do
      let prompt_data ← body.pyGetD prompt_id (Json.obj [])
      prompt_data.pyGetD "outputs" (Json.obj [])

/-- Decides whether a frame avoids the one anomalous path of the
single-node listener: an `executed` frame matching the expected prompt
for a watched node whose output payload is **not** a dict (there the
source assigns `result[node_id] = []` and then raises on
`output_data.items()`, leaving an entry behind without signalling).
The decision tree mirrors `MonitorWsOut.handleText` exactly. -/
def dictOutputFrame (expected_prompt_id : String) (watch_node_ids : List String) :
    WsMessage → Bool
  | .binary _ => true
  | .malformed _ => true
  | .text data =>
      match data.pyGet "type" with
      | none => true
      | some t =>
          if t.pyStrEq "executed" then
            match data.pyGetD "data" (Json.obj []) with
            | none => true
            | some d =>
                match d.pyGet "prompt_id" with
                | none => true
                | some pid =>
                    if !pid.pyStrEq expected_prompt_id then true
                    else
                      match d.pyGet "node" with
                      | none => true
                      | some node =>
                          if watch_node_ids.any (fun w => node.pyStrEq w) then
                            match d.pyGetD "output" (Json.obj []) with
                            | none => true
                            | some (Json.obj _) => true
                            | some _ => false
                          else true
          else true

/-!
Concrete fixtures used by witnesses and counterexamples.
-/

/-- A tracking configuration watching node 16 of job p1, with
cancel-on-ready and a preview callback configured; its base64 decoder
always raises. -/
def cfgW : MonitorConfig :=
  { prompt_id := "p1", watch_node_ids := ["16"], interrupt_on_ready := true,
    hasPreviewCallback := true, b64decode := fun _ => none }

/-- A tracking configuration watching nodes 15 and 16 of job p1. -/
def cfgW2 : MonitorConfig :=
  { prompt_id := "p1", watch_node_ids := ["15", "16"], interrupt_on_ready := false,
    hasPreviewCallback := false, b64decode := fun _ => none }

/-- A tracking configuration watching node 16 of job p1 with no
cancel-on-ready and no preview callback. -/
def cfg16 : MonitorConfig :=
  { prompt_id := "p1", watch_node_ids := ["16"], interrupt_on_ready := false,
    hasPreviewCallback := false, b64decode := fun _ => none }

/-- The initial listener state: nothing confirmed, no effects yet. -/
def st0 : MonitorState := ⟨[], []⟩

/-- A status heartbeat reporting an empty queue. -/
def statusMsg0 : Json :=
  Json.obj [("type", Json.str "status"),
    ("data", Json.obj [("status", Json.obj [("exec_info",
      Json.obj [("queue_remaining", Json.num 0)])])])]

/-- A cache batch for job p1 covering node 15 only. -/
def cachedMsg0 : Json :=
  Json.obj [("type", Json.str "execution_cached"),
    ("data", Json.obj [("prompt_id", Json.str "p1"),
      ("nodes", Json.arr [Json.str "15"])])]

/-- A cache batch for job p1 covering node 16. -/
def cachedMsg1 : Json :=
  Json.obj [("type", Json.str "execution_cached"),
    ("data", Json.obj [("prompt_id", Json.str "p1"),
      ("nodes", Json.arr [Json.str "16"])])]

/-- A JSON preview frame carrying a base64 payload. -/
def previewMsg0 : Json :=
  Json.obj [("type", Json.str "preview"),
    ("data", Json.obj [("image", Json.str "AAAA")])]

/-- An executed frame for job p1 with the given node and output
payload. -/
def execMsg (node : String) (output : Json) : Json :=
  Json.obj [("type", Json.str "executed"),
    ("data", Json.obj [("prompt_id", Json.str "p1"),
      ("node", Json.str node), ("output", output)])]

/-- One image artifact as the history record stores it. -/
def artifactX : Json :=
  Json.obj [("filename", Json.str "x.png"), ("subfolder", Json.str ""),
    ("type", Json.str "output")]

/-- A history response body for job p1 whose node 16 produced one
image: its outputs entry for 16 is the kind-keyed object
`images -> [artifactX]`. -/
def historyBody16 : Json :=
  Json.obj [("p1", Json.obj [("outputs",
    Json.obj [("16", Json.obj [("images", Json.arr [artifactX])])])])]

/-!
Characterization lemmas for the listener of `monitor_until_nodes_ready`,
one per message family, shared by the claim theorems below.
-/

theorem pyStrEq_self (s : String) : (Json.str s).pyStrEq s = true := by
  simp [Json.pyStrEq]

theorem handleJson_cached (cfg : MonitorConfig) (st : MonitorState)
    (data d cached : Json) (allIn : Bool)
    (hType : data.pyGet "type" = some (Json.str "execution_cached"))
    (hData : data.pyGetD "data" (Json.obj []) = some d)
    (hPid : d.pyGet "prompt_id" = some (Json.str cfg.prompt_id))
    (hNodes : d.pyGetD "nodes" (Json.arr []) = some cached)
    (hAll : allWatchedIn cfg.watch_node_ids cached = some allIn) :
    MonitorReady.handleJson cfg st data =
      some (if allIn then
              { st with trace := st.trace ++ completionWsActions cfg.interrupt_on_ready }
            else st) := by
  simp only [MonitorReady.handleJson, hType, hData, hPid, hNodes, hAll,
    Option.bind_eq_bind, Option.some_bind, Json.pyStrEq]
  simp
  split <;> simp

theorem handleJson_executed (cfg : MonitorConfig) (st : MonitorState)
    (data d : Json) (s : String)
    (hType : data.pyGet "type" = some (Json.str "executed"))
    (hData : data.pyGetD "data" (Json.obj []) = some d)
    (hPid : d.pyGet "prompt_id" = some (Json.str cfg.prompt_id))
    (hNode : d.pyGet "node" = some (Json.str s))
    (hWatch : s ∈ cfg.watch_node_ids) :
    MonitorReady.handleJson cfg st data =
      some (if cfg.watch_node_ids.all
              (fun n => (insertStr st.received_executed s).contains n) then
              { received_executed := insertStr st.received_executed s,
                trace := st.trace ++ completionWsActions cfg.interrupt_on_ready }
            else { st with received_executed := insertStr st.received_executed s }) := by
  have hAny : cfg.watch_node_ids.any (fun w => decide (s = w)) = true := by
    rw [List.any_eq_true]
    exact ⟨s, hWatch, by simp⟩
  simp only [MonitorReady.handleJson, hType, hData, hPid, hNode,
    Option.bind_eq_bind, Option.some_bind, Json.pyStrEq, hAny]
  simp
  split <;> simp

theorem handleJson_executed_other (cfg : MonitorConfig) (st : MonitorState)
    (data d pid : Json)
    (hType : data.pyGet "type" = some (Json.str "executed"))
    (hData : data.pyGetD "data" (Json.obj []) = some d)
    (hPid : d.pyGet "prompt_id" = some pid)
    (hNe : pid.pyStrEq cfg.prompt_id = false) :
    MonitorReady.handleJson cfg st data = some st := by
  simp only [MonitorReady.handleJson, hType, hData, hPid,
    Option.bind_eq_bind, Option.some_bind, pyStrEq_self, hNe]
  simp

theorem handleJson_status (cfg : MonitorConfig) (st : MonitorState)
    (data d sv ei qr : Json)
    (hType : data.pyGet "type" = some (Json.str "status"))
    (hData : data.pyGetD "data" (Json.obj []) = some d)
    (hStat : d.pyGetD "status" (Json.obj []) = some sv)
    (hExec : sv.pyGetD "exec_info" (Json.obj []) = some ei)
    (hQr : ei.pyGet "queue_remaining" = some qr)
    (hZero : qr.pyIntEq 0 = true) :
    MonitorReady.handleJson cfg st data =
      some { st with trace := st.trace ++ [WsAction.setDone, WsAction.closeWs] } := by
  simp only [MonitorReady.handleJson, hType, hData, hStat, hExec, hQr,
    Option.bind_eq_bind, Option.some_bind, Json.pyStrEq, hZero]
  simp

theorem handleJson_preview_decode_error (cfg : MonitorConfig) (st : MonitorState)
    (data d : Json) (s : String)
    (hCb : cfg.hasPreviewCallback = true)
    (hType : data.pyGet "type" = some (Json.str "preview"))
    (hData : data.pyGetD "data" (Json.obj []) = some d)
    (hImg : d.pyGet "image" = some (Json.str s))
    (hTruthy : (Json.str s).truthy = true)
    (hDec : cfg.b64decode s = none) :
    MonitorReady.handleJson cfg st data = some st := by
  simp only [MonitorReady.handleJson, hType, hData, hImg, hCb, hDec,
    Option.bind_eq_bind, Option.some_bind, Json.pyStrEq, hTruthy]
  simp

theorem handleJson_preview_ok (cfg : MonitorConfig) (st : MonitorState)
    (data d : Json) (s : String) (bin : List Nat)
    (hCb : cfg.hasPreviewCallback = true)
    (hType : data.pyGet "type" = some (Json.str "preview"))
    (hData : data.pyGetD "data" (Json.obj []) = some d)
    (hImg : d.pyGet "image" = some (Json.str s))
    (hTruthy : (Json.str s).truthy = true)
    (hDec : cfg.b64decode s = some bin) :
    MonitorReady.handleJson cfg st data =
      some { st with trace := st.trace ++ [WsAction.previewInvoke bin] } := by
  simp only [MonitorReady.handleJson, hType, hData, hImg, hCb, hDec,
    Option.bind_eq_bind, Option.some_bind, Json.pyStrEq, hTruthy]
  simp

/-!
Helper lemmas shared by the claim theorems.
-/

theorem if_isEmpty_self {α : Type} (l : List α) :
    (if l.isEmpty then ([] : List α) else l) = l := by
  cases l <;> simp

theorem monitor_eq_history (cfg : MonitorConfig) (msgs : List WsMessage)
    (resp : HttpResult) :
    monitor_until_nodes_ready cfg msgs resp
      = get_node_outputs_from_history cfg.prompt_id cfg.watch_node_ids resp := by
  simp [monitor_until_nodes_ready, if_isEmpty_self]

theorem setEntry_mem {α : Type} (m : List (String × α)) (key k : String)
    (v v' : α) :
    (k, v) ∈ setEntry m key v' → (k, v) ∈ m ∨ (k = key ∧ v = v') := by
  induction m with
  | nil =>
      intro h
      simp only [setEntry, List.mem_singleton, Prod.mk.injEq] at h
      exact Or.inr h
  | cons p rest ih =>
      obtain ⟨k0, v0⟩ := p
      intro h
      by_cases h0 : k0 = key
      · subst h0
        simp [setEntry] at h
        rcases h with h1 | h2
        · exact Or.inr h1
        · exact Or.inl (List.mem_cons_of_mem _ h2)
      · simp only [setEntry, if_neg h0, List.mem_cons] at h
        rcases h with h1 | h2
        · exact Or.inl (List.mem_cons.mpr (Or.inl h1))
        · rcases ih h2 with h3 | h4
          · exact Or.inl (List.mem_cons_of_mem _ h3)
          · exact Or.inr h4

theorem historyFold_mem (outputs : Json) (node_ids : List String) :
    ∀ (acc r : List (String × Json)),
      List.foldlM (historyStep outputs) acc node_ids = some r →
      ∀ k v, (k, v) ∈ r →
        (k, v) ∈ acc ∨
          (k ∈ node_ids ∧ jsonContainsStr outputs k = some true ∧
            jsonSubscriptStr outputs k = some v) := by
  induction node_ids with
  | nil =>
      intro acc r h k v hm
      simp only [List.foldlM] at h
      cases h
      exact Or.inl hm
  | cons nid rest ih =>
      intro acc r h k v hm
      simp only [List.foldlM, Option.bind_eq_bind] at h
      cases hs : historyStep outputs acc nid with
      | none => rw [hs] at h; simp at h
      | some acc' =>
          rw [hs] at h
          simp only [Option.some_bind] at h
          rcases ih acc' r h k v hm with hin | ⟨hk, hc, hv⟩
          · -- trace the membership through one history step
            simp only [historyStep, Option.bind_eq_bind] at hs
            cases hcs : jsonContainsStr outputs nid with
            | none => rw [hcs] at hs; simp at hs
            | some mem =>
                rw [hcs] at hs
                simp only [Option.some_bind] at hs
                cases mem with
                | true =>
                    cases hsub : jsonSubscriptStr outputs nid with
                    | none => rw [hsub] at hs; simp at hs
                    | some v0 =>
                        rw [hsub] at hs
                        simp at hs
                        subst hs
                        rcases setEntry_mem acc nid k v v0 hin with h1 | ⟨h2, h3⟩
                        · exact Or.inl h1
                        · subst h2; subst h3
                          exact Or.inr ⟨List.mem_cons_self _ _, hcs, hsub⟩
                | false =>
                    simp at hs
                    subst hs
                    exact Or.inl hin
          · exact Or.inr ⟨List.mem_cons_of_mem _ hk, hc, hv⟩

theorem history_mem_characterize (prompt_id : String) (node_ids : List String)
    (resp : HttpResult) (k : String) (v : Json)
    (hm : (k, v) ∈ get_node_outputs_from_history prompt_id node_ids resp) :
    k ∈ node_ids ∧ ∃ outs, recordOutputs resp prompt_id = some outs ∧
      jsonContainsStr outs k = some true ∧ jsonSubscriptStr outs k = some v := by
  cases resp with
  | failure m => simp [get_node_outputs_from_history] at hm
  | success status body =>
      simp only [get_node_outputs_from_history] at hm
      by_cases hstat : status = 200
      · subst hstat
        simp only [ne_eq, not_true_eq_false, if_false, reduceIte] at hm
        cases htb : historyTryBody prompt_id node_ids body with
        | none => rw [htb] at hm; simp at hm
        | some r =>
            rw [htb] at hm
            simp only [Option.getD_some] at hm
            simp only [historyTryBody, Option.bind_eq_bind] at htb
            cases hpd : body.pyGetD prompt_id (Json.obj []) with
            | none => rw [hpd] at htb; simp at htb
            | some prompt_data =>
                rw [hpd] at htb
                simp only [Option.some_bind] at htb
                cases hout : prompt_data.pyGetD "outputs" (Json.obj []) with
                | none => rw [hout] at htb; simp at htb
                | some outs =>
                    rw [hout] at htb
                    simp only [Option.some_bind] at htb
                    rcases historyFold_mem outs node_ids [] r htb k v hm with
                      hin | ⟨hk, hc, hv⟩
                    · simp at hin
                    · exact ⟨hk, outs, by simp [recordOutputs, hpd, hout], hc, hv⟩
      · rw [if_pos hstat] at hm
        simp at hm

theorem history16_eval :
    get_node_outputs_from_history "p1" ["16"] (.success 200 historyBody16)
      = [("16", Json.obj [("images", Json.arr [artifactX])])] := rfl

theorem track16_eval :
    monitor_until_nodes_ready cfg16 [] (.success 200 historyBody16)
      = [("16", Json.obj [("images", Json.arr [artifactX])])] := rfl

theorem history16_mem :
    ("16", Json.obj [("images", Json.arr [artifactX])])
      ∈ get_node_outputs_from_history "p1" ["16"] (.success 200 historyBody16) := by
  rw [history16_eval]
  exact List.mem_singleton.mpr rfl

theorem track16_mem :
    ("16", Json.obj [("images", Json.arr [artifactX])])
      ∈ monitor_until_nodes_ready cfg16 [] (.success 200 historyBody16) := by
  rw [track16_eval]
  exact List.mem_singleton.mpr rfl

/-!
Claim theorems.
-/

/-- C1: whenever tracking ends, `monitor_until_nodes_ready` resolves the
final result by querying `get_node_outputs_from_history` for the tracked
prompt id and watch set and returns exactly that mapping, whatever the
live channel delivered; hence the returned mapping equals, and in
particular is a subset of, what a direct history poll for the same job
id returns at that instant. -/
theorem track_resolves_via_history (cfg : MonitorConfig) (msgs : List WsMessage)
    (resp : HttpResult) :
    monitor_until_nodes_ready cfg msgs resp
        = get_node_outputs_from_history cfg.prompt_id cfg.watch_node_ids resp ∧
      monitor_until_nodes_ready cfg msgs resp
        ⊆ get_node_outputs_from_history cfg.prompt_id cfg.watch_node_ids resp := by
  refine ⟨monitor_eq_history cfg msgs resp, ?_⟩
  rw [monitor_eq_history cfg msgs resp]
  exact List.Subset.refl _

/-- C4: every key of the mapping returned by
`get_node_outputs_from_history` is both a requested node id and an
identifier present in the history record's outputs (absent ids are
omitted, never an error), and consequently every key of a tracking
result lies in the watch set. -/
theorem history_keys_in_watch_and_record :
    (∀ (prompt_id : String) (node_ids : List String) (resp : HttpResult)
        (k : String) (v : Json),
        (k, v) ∈ get_node_outputs_from_history prompt_id node_ids resp →
        k ∈ node_ids ∧ ∃ outs, recordOutputs resp prompt_id = some outs ∧
          jsonContainsStr outs k = some true) ∧
      (∀ (cfg : MonitorConfig) (msgs : List WsMessage) (resp : HttpResult)
        (k : String) (v : Json),
        (k, v) ∈ monitor_until_nodes_ready cfg msgs resp →
        k ∈ cfg.watch_node_ids) := by
  constructor
  · intro prompt_id node_ids resp k v hm
    obtain ⟨hk, outs, ho, hc, _⟩ := history_mem_characterize prompt_id node_ids resp k v hm
    exact ⟨hk, outs, ho, hc⟩
  · intro cfg msgs resp k v hm
    rw [monitor_eq_history cfg msgs resp] at hm
    exact (history_mem_characterize cfg.prompt_id cfg.watch_node_ids resp k v hm).1

/-- C4 witness: for a concrete 200 response whose record holds outputs
for node 16, the returned key 16 is in the watch set and in the record. -/
theorem history_keys_in_watch_and_record_witness :
    (("16", Json.obj [("images", Json.arr [artifactX])])
        ∈ get_node_outputs_from_history "p1" ["16"] (.success 200 historyBody16) ∧
      "16" ∈ ["16"] ∧
      ∃ outs, recordOutputs (.success 200 historyBody16) "p1" = some outs ∧
        jsonContainsStr outs "16" = some true) :=
  ⟨history16_mem, history_keys_in_watch_and_record.1 "p1" ["16"]
    (.success 200 historyBody16) "16" (Json.obj [("images", Json.arr [artifactX])])
    history16_mem⟩

/-- C7: `get_node_outputs_from_history` never raises: a transport
failure, a non-200 response, or any exception inside the try block
(modelled by `historyTryBody` returning `none`) all yield the empty
mapping. -/
theorem history_best_effort_empty :
    (∀ (prompt_id : String) (node_ids : List String) (m : String),
        get_node_outputs_from_history prompt_id node_ids (.failure m) = []) ∧
      (∀ (prompt_id : String) (node_ids : List String) (status : Nat)
          (body : Json), status ≠ 200 →
        get_node_outputs_from_history prompt_id node_ids
          (.success status body) = []) ∧
      (∀ (prompt_id : String) (node_ids : List String) (body : Json),
        historyTryBody prompt_id node_ids body = none →
        get_node_outputs_from_history prompt_id node_ids
          (.success 200 body) = []) := by
  refine ⟨fun _ _ _ => rfl, ?_, ?_⟩
  · intro pid ids s b h
    simp [get_node_outputs_from_history, h]
  · intro pid ids b h
    simp [get_node_outputs_from_history, h]

/-- C7 witness: a transport failure, an HTTP 500 and a non-dict body
each map concretely to the empty result. -/
theorem history_best_effort_empty_witness :
    get_node_outputs_from_history "p1" ["16"] (.failure "boom") = [] ∧
      ((500 : Nat) ≠ 200 ∧
        get_node_outputs_from_history "p1" ["16"]
          (.success 500 (Json.obj [])) = []) ∧
      (historyTryBody "p1" ["16"] (Json.num 3) = none ∧
        get_node_outputs_from_history "p1" ["16"]
          (.success 200 (Json.num 3)) = []) :=
  ⟨history_best_effort_empty.1 "p1" ["16"] "boom",
   ⟨by decide, history_best_effort_empty.2.1 "p1" ["16"] 500 (Json.obj [])
      (by decide)⟩,
   ⟨rfl, history_best_effort_empty.2.2 "p1" ["16"] (Json.num 3) rfl⟩⟩

/-- C2 counterexample: for the documented single-image scenario the
value that `track` returns for watched identifier 16 is the raw
per-node outputs object keyed by artifact kind, not the flat artifact
list the claim asserts. -/
theorem track_value_kind_keyed_counterexample :
    monitor_until_nodes_ready cfg16 [] (.success 200 historyBody16)
      = [("16", Json.obj [("images", Json.arr [artifactX])])] ∧
      Json.obj [("images", Json.arr [artifactX])] ≠ Json.arr [artifactX] := by
  refine ⟨rfl, ?_⟩
  intro h
  exact Json.noConfusion h

/-- C2 amended: for every watched identifier present in the final
tracking result, the associated value is the history record's raw
per-node outputs object for that identifier (keyed by artifact kind,
e.g. an object mapping "images" to the artifact list), which callers
unpack by kind key. -/
theorem track_value_is_record_entry (cfg : MonitorConfig)
    (msgs : List WsMessage) (resp : HttpResult) (k : String) (v : Json)
    (hm : (k, v) ∈ monitor_until_nodes_ready cfg msgs resp) :
    ∃ outs, recordOutputs resp cfg.prompt_id = some outs ∧
      jsonSubscriptStr outs k = some v := by
  rw [monitor_eq_history cfg msgs resp] at hm
  obtain ⟨_, outs, ho, _, hv⟩ :=
    history_mem_characterize cfg.prompt_id cfg.watch_node_ids resp k v hm
  exact ⟨outs, ho, hv⟩

/-- C2 witness: in the concrete single-image scenario the tracked value
for 16 is exactly the record's outputs entry for 16. -/
theorem track_value_is_record_entry_witness :
    ∃ outs, recordOutputs (.success 200 historyBody16) "p1" = some outs ∧
      jsonSubscriptStr outs "16" = some (Json.obj [("images", Json.arr [artifactX])]) :=
  track_value_is_record_entry cfg16 [] (.success 200 historyBody16) "16"
    (Json.obj [("images", Json.arr [artifactX])]) track16_mem

/-- C3: an `execution_cached` event for the tracked prompt whose cached
list covers only part of the watch set leaves the listener state
entirely unchanged (no completion signal, keep waiting); and such an
event changes the state at all only when its single batch covers every
watched identifier. -/
theorem cached_partial_never_signals (cfg : MonitorConfig) (st : MonitorState)
    (data : Json) {d cached : Json}
    (hType : data.pyGet "type" = some (Json.str "execution_cached"))
    (hData : data.pyGetD "data" (Json.obj []) = some d)
    (hPid : d.pyGet "prompt_id" = some (Json.str cfg.prompt_id))
    (hNodes : d.pyGetD "nodes" (Json.arr []) = some cached) :
    (allWatchedIn cfg.watch_node_ids cached = some false →
        MonitorReady.on_message cfg st (.text data) = st) ∧
      (∀ allIn, allWatchedIn cfg.watch_node_ids cached = some allIn →
        MonitorReady.on_message cfg st (.text data) ≠ st →
        allIn = true) := by
  constructor
  · intro hAll
    have h := handleJson_cached cfg st data d cached false hType hData hPid hNodes hAll
    simp [MonitorReady.on_message, h]
  · intro allIn hAll hne
    cases allIn with
    | true => rfl
    | false =>
        exfalso
        apply hne
        have h := handleJson_cached cfg st data d cached false hType hData hPid hNodes hAll
        simp [MonitorReady.on_message, h]

/-- C3 witness: cached batch listing node 15 while watching nodes 15
and 16 leaves the listener waiting. -/
theorem cached_partial_never_signals_witness :
    allWatchedIn cfgW2.watch_node_ids (Json.arr [Json.str "15"]) = some false ∧
      MonitorReady.on_message cfgW2 st0 (.text cachedMsg0) = st0 :=
  ⟨rfl, (cached_partial_never_signals cfgW2 st0 cachedMsg0 rfl rfl rfl rfl).1 rfl⟩

/-- C5: a `status` event whose `exec_info.queue_remaining` equals 0
makes the listener set the done event and close the socket immediately,
from any state (before any executed event or not, deadline aside),
recording no watched node as confirmed and firing no interrupt
request. -/
theorem status_queue_drained (cfg : MonitorConfig) (st : MonitorState)
    (data : Json) {d sv ei qr : Json}
    (hType : data.pyGet "type" = some (Json.str "status"))
    (hData : data.pyGetD "data" (Json.obj []) = some d)
    (hStat : d.pyGetD "status" (Json.obj []) = some sv)
    (hExec : sv.pyGetD "exec_info" (Json.obj []) = some ei)
    (hQr : ei.pyGet "queue_remaining" = some qr)
    (hZero : qr.pyIntEq 0 = true) :
    MonitorReady.on_message cfg st (.text data)
        = { st with trace := st.trace ++ [WsAction.setDone, WsAction.closeWs] } ∧
      (MonitorReady.on_message cfg st (.text data)).received_executed
        = st.received_executed ∧
      WsAction.interruptReq ∉ [WsAction.setDone, WsAction.closeWs] := by
  have h := handleJson_status cfg st data d sv ei qr hType hData hStat hExec hQr hZero
  refine ⟨?_, ?_, by decide⟩
  · simp [MonitorReady.on_message, h]
  · simp [MonitorReady.on_message, h]

/-- C5 witness: a concrete zero-queue status heartbeat drains the wait
in the initial state. -/
theorem status_queue_drained_witness :
    MonitorReady.on_message cfgW st0 (.text statusMsg0)
        = { st0 with trace := st0.trace ++ [WsAction.setDone, WsAction.closeWs] } ∧
      (MonitorReady.on_message cfgW st0 (.text statusMsg0)).received_executed
        = st0.received_executed ∧
      WsAction.interruptReq ∉ [WsAction.setDone, WsAction.closeWs] :=
  status_queue_drained cfgW st0 statusMsg0 rfl rfl rfl rfl rfl rfl

/-- C8: a binary frame with a preview callback configured invokes the
callback on exactly the frame bytes with the first 8 header bytes
stripped and changes nothing else (a raising callback is caught, with
only logging after the call, so the state transition is the same); and
a JSON preview whose base64 decode raises is swallowed: the listener
state is unchanged and nothing reaches the preview sink. -/
theorem preview_strips_header_and_swallows (cfg : MonitorConfig)
    (st : MonitorState) :
    (∀ bytes : List Nat, cfg.hasPreviewCallback = true →
        MonitorReady.on_message cfg st (.binary bytes)
          = { st with trace := st.trace
                ++ [WsAction.previewInvoke (bytes.drop 8)] }) ∧
      (∀ (data : Json) {d : Json} (s : String),
        cfg.hasPreviewCallback = true →
        data.pyGet "type" = some (Json.str "preview") →
        data.pyGetD "data" (Json.obj []) = some d →
        d.pyGet "image" = some (Json.str s) →
        (Json.str s).truthy = true →
        cfg.b64decode s = none →
        MonitorReady.on_message cfg st (.text data) = st) := by
  constructor
  · intro bytes hCb
    simp [MonitorReady.on_message, hCb]
  · intro data d s hCb hType hData hImg hT hDec
    have h := handleJson_preview_decode_error cfg st data d s hCb hType hData hImg hT hDec
    simp [MonitorReady.on_message, h]

/-- C8 witness: a ten-byte binary frame forwards exactly its last two
bytes, and a JSON preview whose decode raises leaves the state
unchanged. -/
theorem preview_strips_header_and_swallows_witness :
    MonitorReady.on_message cfgW st0 (.binary [1, 2, 3, 4, 5, 6, 7, 8, 9, 10])
        = { st0 with trace := st0.trace ++ [WsAction.previewInvoke [9, 10]] } ∧
      MonitorReady.on_message cfgW st0 (.text previewMsg0) = st0 := by
  constructor
  · have h := (preview_strips_header_and_swallows cfgW st0).1
      [1, 2, 3, 4, 5, 6, 7, 8, 9, 10] rfl
    simpa using h
  · exact (preview_strips_header_and_swallows cfgW st0).2 previewMsg0 "AAAA"
      rfl rfl rfl rfl rfl rfl

/-- C9: with cancel-on-ready configured, both completion paths of the
listener (all watched nodes executed, or all watched nodes cached in
one batch) append exactly one interrupt request, placed before the done
signal and the socket close; and `interrupt()` returns true exactly on
HTTP 200, returning false instead of raising on a transport failure. -/
theorem interrupt_fired_before_done (cfg : MonitorConfig) (st : MonitorState) :
    (∀ (data : Json) {d : Json} (s : String),
        cfg.interrupt_on_ready = true →
        data.pyGet "type" = some (Json.str "executed") →
        data.pyGetD "data" (Json.obj []) = some d →
        d.pyGet "prompt_id" = some (Json.str cfg.prompt_id) →
        d.pyGet "node" = some (Json.str s) →
        s ∈ cfg.watch_node_ids →
        cfg.watch_node_ids.all
          (fun n => (insertStr st.received_executed s).contains n) = true →
        MonitorReady.on_message cfg st (.text data)
          = { received_executed := insertStr st.received_executed s,
              trace := st.trace
                ++ [WsAction.interruptReq, WsAction.setDone, WsAction.closeWs] }) ∧
      (∀ (data : Json) {d cached : Json},
        cfg.interrupt_on_ready = true →
        data.pyGet "type" = some (Json.str "execution_cached") →
        data.pyGetD "data" (Json.obj []) = some d →
        d.pyGet "prompt_id" = some (Json.str cfg.prompt_id) →
        d.pyGetD "nodes" (Json.arr []) = some cached →
        allWatchedIn cfg.watch_node_ids cached = some true →
        MonitorReady.on_message cfg st (.text data)
          = { st with trace := st.trace
                ++ [WsAction.interruptReq, WsAction.setDone, WsAction.closeWs] }) ∧
      (∀ m : String, interrupt (.failure m) = false) ∧
      (∀ (status : Nat) (body : Json),
        interrupt (.success status body) = true ↔ status = 200) := by
  refine ⟨?_, ?_, fun _ => rfl, ?_⟩
  · intro data d s hIor hType hData hPid hNode hWatch hAll
    have h := handleJson_executed cfg st data d s hType hData hPid hNode hWatch
    simp [MonitorReady.on_message, h, hAll, completionWsActions, hIor]
    rw [List.all_eq_true] at hAll
    intro x hx
    simpa using hAll x hx
  · intro data d cached hIor hType hData hPid hNodes hAll
    have h := handleJson_cached cfg st data d cached true hType hData hPid hNodes hAll
    simp [MonitorReady.on_message, h, completionWsActions, hIor]
  · intro status body
    simp [interrupt]

/-- C9 witness: an executed frame completing the watch set of a
cancel-on-ready tracker appends interrupt, done, close in that order,
and `interrupt` maps a failure to false and a 200 response to true. -/
theorem interrupt_fired_before_done_witness :
    MonitorReady.on_message cfgW st0 (.text (execMsg "16" (Json.obj [])))
        = { received_executed := insertStr st0.received_executed "16",
            trace := st0.trace
              ++ [WsAction.interruptReq, WsAction.setDone, WsAction.closeWs] } ∧
      interrupt (.failure "down") = false ∧
      (interrupt (.success 200 (Json.obj [])) = true ↔ (200 : Nat) = 200) :=
  ⟨(interrupt_fired_before_done cfgW st0).1 (execMsg "16" (Json.obj [])) "16"
      rfl rfl rfl rfl rfl (by decide) rfl,
   (interrupt_fired_before_done cfgW st0).2.2.1 "down",
   (interrupt_fired_before_done cfgW st0).2.2.2 200 (Json.obj [])⟩

theorem handleText_other_prompt (expected : String) (watch : List String)
    (st : WsOutState) (data d pid : Json)
    (hType : data.pyGet "type" = some (Json.str "executed"))
    (hData : data.pyGetD "data" (Json.obj []) = some d)
    (hPid : d.pyGet "prompt_id" = some pid)
    (hNe : pid.pyStrEq expected = false) :
    MonitorWsOut.handleText expected watch st data = st := by
  simp only [MonitorWsOut.handleText, hType, hData, hPid, hNe]
  simp

theorem handleText_executed_obj (expected : String) (watch : List String)
    (st : WsOutState) (data d : Json) (s : String)
    (fields : List (String × Json))
    (hType : data.pyGet "type" = some (Json.str "executed"))
    (hData : data.pyGetD "data" (Json.obj []) = some d)
    (hPid : d.pyGet "prompt_id" = some (Json.str expected))
    (hNode : d.pyGet "node" = some (Json.str s))
    (hWatch : s ∈ watch)
    (hOut : d.pyGetD "output" (Json.obj []) = some (Json.obj fields)) :
    MonitorWsOut.handleText expected watch st data =
      { st with
        result := setEntry st.result s (flattenListEntries fields),
        doneSet := true, closed := true } := by
  have hAny : (watch.any fun w => (Json.str s).pyStrEq w) = true := by
    rw [List.any_eq_true]
    exact ⟨s, hWatch, by simp [Json.pyStrEq]⟩
  simp only [MonitorWsOut.handleText, hType, hData, hPid, hNode, hOut,
    pyStrEq_self, hAny]
  simp

/-- C6: for `executed` events, both listeners ignore events whose
prompt id differs from the tracked job (no state change at all); on a
matching event for a watched node, the tracking listener records the
node id into its running confirmed set, and the single-node listener
stores as that node's result list exactly the values of the list-valued
entries of the output payload, flattened in field order, dropping the
entries whose values are not lists. -/
theorem executed_event_handling :
    (∀ (cfg : MonitorConfig) (st : MonitorState) (data : Json) {d pid : Json},
        data.pyGet "type" = some (Json.str "executed") →
        data.pyGetD "data" (Json.obj []) = some d →
        d.pyGet "prompt_id" = some pid →
        pid.pyStrEq cfg.prompt_id = false →
        MonitorReady.on_message cfg st (.text data) = st) ∧
      (∀ (expected : String) (watch : List String) (st : WsOutState)
          (data : Json) {d pid : Json},
        data.pyGet "type" = some (Json.str "executed") →
        data.pyGetD "data" (Json.obj []) = some d →
        d.pyGet "prompt_id" = some pid →
        pid.pyStrEq expected = false →
        MonitorWsOut.handleText expected watch st data = st) ∧
      (∀ (cfg : MonitorConfig) (st : MonitorState) (data : Json) {d : Json}
          (s : String),
        data.pyGet "type" = some (Json.str "executed") →
        data.pyGetD "data" (Json.obj []) = some d →
        d.pyGet "prompt_id" = some (Json.str cfg.prompt_id) →
        d.pyGet "node" = some (Json.str s) →
        s ∈ cfg.watch_node_ids →
        (MonitorReady.on_message cfg st (.text data)).received_executed
          = insertStr st.received_executed s) ∧
      (∀ (expected : String) (watch : List String) (st : WsOutState)
          (data : Json) {d : Json} (s : String)
          (fields : List (String × Json)),
        data.pyGet "type" = some (Json.str "executed") →
        data.pyGetD "data" (Json.obj []) = some d →
        d.pyGet "prompt_id" = some (Json.str expected) →
        d.pyGet "node" = some (Json.str s) →
        s ∈ watch →
        d.pyGetD "output" (Json.obj []) = some (Json.obj fields) →
        (MonitorWsOut.handleText expected watch st data).result
          = setEntry st.result s (flattenListEntries fields)) := by
  refine ⟨?_, ?_, ?_, ?_⟩
  · intro cfg st data d pid hType hData hPid hNe
    have h := handleJson_executed_other cfg st data d pid hType hData hPid hNe
    simp [MonitorReady.on_message, h]
  · intro expected watch st data d pid hType hData hPid hNe
    exact handleText_other_prompt expected watch st data d pid hType hData hPid hNe
  · intro cfg st data d s hType hData hPid hNode hWatch
    have h := handleJson_executed cfg st data d s hType hData hPid hNode hWatch
    simp only [MonitorReady.on_message, h, Option.getD_some]
    split <;> rfl
  · intro expected watch st data d s fields hType hData hPid hNode hWatch hOut
    rw [handleText_executed_obj expected watch st data d s fields
      hType hData hPid hNode hWatch hOut]

/-- C6 witness: a foreign-prompt executed frame is dropped, a matching
frame records node 16 as confirmed, and the single-node listener
flattens the one list-valued entry of a two-entry payload, dropping the
non-list entry. -/
theorem executed_event_handling_witness :
    MonitorReady.on_message cfgW st0
        (.text (Json.obj [("type", Json.str "executed"),
          ("data", Json.obj [("prompt_id", Json.str "p2"),
            ("node", Json.str "16"), ("output", Json.obj [])])])) = st0 ∧
      (MonitorReady.on_message cfgW st0
          (.text (execMsg "16" (Json.obj [])))).received_executed
        = insertStr st0.received_executed "16" ∧
      (MonitorWsOut.handleText "p1" ["A", "B"] ⟨[], false, false⟩
          (execMsg "A" (Json.obj [("images", Json.arr [artifactX]),
            ("count", Json.num 3)]))).result
        = setEntry (WsOutState.result ⟨[], false, false⟩) "A"
            (flattenListEntries [("images", Json.arr [artifactX]),
              ("count", Json.num 3)]) :=
  ⟨executed_event_handling.1 cfgW st0
      (Json.obj [("type", Json.str "executed"),
        ("data", Json.obj [("prompt_id", Json.str "p2"),
          ("node", Json.str "16"), ("output", Json.obj [])])]) rfl rfl rfl rfl,
   executed_event_handling.2.2.1 cfgW st0 (execMsg "16" (Json.obj [])) "16"
      rfl rfl rfl rfl (by decide),
   executed_event_handling.2.2.2 "p1" ["A", "B"] ⟨[], false, false⟩
      (execMsg "A" (Json.obj [("images", Json.arr [artifactX]),
        ("count", Json.num 3)])) "A"
      [("images", Json.arr [artifactX]), ("count", Json.num 3)]
      rfl rfl rfl rfl (by decide) rfl⟩

/-- C10 counterexample: with watch set A, B, an executed frame for A
whose output payload is not a dict records an empty entry without
signalling (the source mutates `result` before `.items()` raises), and
a later matching frame for B then signals, so the returned mapping
carries two keys, refuting the at-most-one-key claim. -/
theorem ws_monitor_two_keys_counterexample :
    (monitor_websocket_for_node_output "p1" ["A", "B"]
        [.text (execMsg "A" (Json.num 5)),
          .text (execMsg "B" (Json.obj []))]).map Prod.fst = ["A", "B"] ∧
      ¬ (monitor_websocket_for_node_output "p1" ["A", "B"]
        [.text (execMsg "A" (Json.num 5)),
          .text (execMsg "B" (Json.obj []))]).length ≤ 1 := by
  constructor
  · rfl
  · have h : (monitor_websocket_for_node_output "p1" ["A", "B"]
        [.text (execMsg "A" (Json.num 5)),
          .text (execMsg "B" (Json.obj []))]).length = 2 := rfl
    omega

theorem step_of_closed (expected : String) (watch : List String)
    (st : WsOutState) (msg : WsMessage) (h : st.closed = true) :
    MonitorWsOut.step expected watch st msg = st := by
  simp [MonitorWsOut.step, h]

set_option maxHeartbeats 1000000 in
theorem handleText_shape (expected : String) (watch : List String)
    (st : WsOutState) (data : Json) :
    MonitorWsOut.handleText expected watch st data = st ∨
      (∃ s v, MonitorWsOut.handleText expected watch st data
          = { result := setEntry st.result s v, doneSet := true,
              closed := true }) ∨
      ((∃ s, MonitorWsOut.handleText expected watch st data
          = { st with result := setEntry st.result s [] }) ∧
        dictOutputFrame expected watch (.text data) = false) := by
  unfold MonitorWsOut.handleText
  repeat' split
  all_goals
    first
      | (left; rfl)
      | (right; left; exact ⟨_, _, rfl⟩)
      | (right; right;
          refine ⟨⟨_, rfl⟩, ?_⟩;
          simp_all [dictOutputFrame])

theorem wsout_step_shape (expected : String) (watch : List String)
    (st : WsOutState) (msg : WsMessage) :
    MonitorWsOut.step expected watch st msg = st ∨
      (∃ s v, MonitorWsOut.step expected watch st msg
          = { result := setEntry st.result s v, doneSet := true,
              closed := true }) ∨
      (∃ s, MonitorWsOut.step expected watch st msg
          = { st with result := setEntry st.result s [] }) := by
  rcases Bool.eq_false_or_eq_true st.closed with hcl | hcl
  · left; exact step_of_closed expected watch st msg hcl
  · cases msg with
    | binary b => left; simp [MonitorWsOut.step, hcl]
    | malformed r => left; simp [MonitorWsOut.step, hcl]
    | text data =>
        have hstep : MonitorWsOut.step expected watch st (.text data)
            = MonitorWsOut.handleText expected watch st data := by
          simp [MonitorWsOut.step, hcl]
        rw [hstep]
        rcases handleText_shape expected watch st data with
          h0 | ⟨s, v, h2⟩ | ⟨⟨s, h3⟩, _⟩
        · exact Or.inl h0
        · exact Or.inr (Or.inl ⟨s, v, h2⟩)
        · exact Or.inr (Or.inr ⟨s, h3⟩)

theorem step_benign_of_dictOutput (expected : String) (watch : List String)
    (msg : WsMessage) (st : WsOutState)
    (hdf : dictOutputFrame expected watch msg = true)
    (hcd : st.closed = st.doneSet)
    (hdone : (MonitorWsOut.step expected watch st msg).doneSet = st.doneSet) :
    MonitorWsOut.step expected watch st msg = st := by
  rcases Bool.eq_false_or_eq_true st.closed with hcl | hcl
  · exact step_of_closed expected watch st msg hcl
  · cases msg with
    | binary b => simp [MonitorWsOut.step, hcl]
    | malformed r => simp [MonitorWsOut.step, hcl]
    | text data =>
        have hd : st.doneSet = false := by rw [hcl] at hcd; exact hcd.symm
        have hstep : MonitorWsOut.step expected watch st (.text data)
            = MonitorWsOut.handleText expected watch st data := by
          simp [MonitorWsOut.step, hcl]
        rw [hstep] at hdone ⊢
        rcases handleText_shape expected watch st data with
          h0 | ⟨s, v, h2⟩ | ⟨⟨s, h3⟩, hf⟩
        · exact h0
        · rw [h2, hd] at hdone
          simp at hdone
        · rw [hf] at hdf
          simp at hdf

theorem wsout_run_invariant (expected : String) (watch : List String) :
    ∀ (msgs : List WsMessage),
      (∀ m ∈ msgs, dictOutputFrame expected watch m = true) →
      ∀ st : WsOutState,
        (st.doneSet = false → st.result = [] ∧ st.closed = false) →
        (st.doneSet = true → st.result.length ≤ 1 ∧ st.closed = true) →
        (((msgs.foldl (MonitorWsOut.step expected watch) st).doneSet = false →
            (msgs.foldl (MonitorWsOut.step expected watch) st).result = [] ∧
              (msgs.foldl (MonitorWsOut.step expected watch) st).closed
                = false) ∧
          ((msgs.foldl (MonitorWsOut.step expected watch) st).doneSet = true →
            (msgs.foldl (MonitorWsOut.step expected watch) st).result.length
                ≤ 1 ∧
              (msgs.foldl (MonitorWsOut.step expected watch) st).closed
                = true)) := by
  intro msgs
  induction msgs with
  | nil => intro _ st h1 h2; exact ⟨h1, h2⟩
  | cons m rest ih =>
      intro hB st h1 h2
      simp only [List.foldl_cons]
      have hBm : dictOutputFrame expected watch m = true :=
        hB m (List.mem_cons_self m rest)
      have hBrest : ∀ x ∈ rest, dictOutputFrame expected watch x = true :=
        fun x hx => hB x (List.mem_cons_of_mem m hx)
      rcases wsout_step_shape expected watch st m with h0 | ⟨s, v, hsig⟩ | ⟨s, hrec⟩
      · rw [h0]; exact ih hBrest st h1 h2
      · rw [hsig]
        apply ih hBrest
        · intro habs; simp at habs
        · intro _
          constructor
          · rcases Bool.eq_false_or_eq_true st.doneSet with hd | hd
            · -- st already done: then st is closed and the step is a no-op
              have hclosed : st.closed = true := (h2 hd).2
              have hstep : MonitorWsOut.step expected watch st m = st :=
                step_of_closed expected watch st m hclosed
              rw [hstep] at hsig
              have hres : st.result = setEntry st.result s v :=
                congrArg WsOutState.result hsig
              simpa [← hres] using (h2 hd).1
            · have hres : st.result = [] := (h1 hd).1
              simp [hres, setEntry]
          · rfl
      · -- an anomalous frame is ruled out by the dict-output hypothesis
        have hcd : st.closed = st.doneSet := by
          rcases Bool.eq_false_or_eq_true st.doneSet with hd | hd
          · rw [hd]; exact (h2 hd).2
          · rw [hd]; exact (h1 hd).2
        have hdone : (MonitorWsOut.step expected watch st m).doneSet
            = st.doneSet := by rw [hrec]
        have hstep := step_benign_of_dictOutput expected watch m st hBm hcd hdone
        rw [hstep]
        exact ih hBrest st h1 h2

/-- C10 amended: `monitor_websocket_for_node_output` signals completion
and closes its subscription on the first executed event matching the
expected prompt id for a watched node whose output payload is a dict;
a matching event whose payload is not a dict records an empty entry
without signalling, so in every run free of such frames the returned
mapping has at most one key even when several identifiers are watched;
and whenever completion is never signalled before the timeout it
returns the empty mapping. -/
theorem ws_monitor_at_most_one_key (expected : String) (watch : List String)
    (msgs : List WsMessage)
    (hB : ∀ m ∈ msgs, dictOutputFrame expected watch m = true) :
    (monitor_websocket_for_node_output expected watch msgs).length ≤ 1 ∧
      ((MonitorWsOut.run expected watch msgs).doneSet = false →
        monitor_websocket_for_node_output expected watch msgs = []) := by
  have hinv := wsout_run_invariant expected watch msgs hB ⟨[], false, false⟩
    (fun _ => ⟨rfl, rfl⟩) (fun habs => by simp at habs)
  have hrun : MonitorWsOut.run expected watch msgs
      = msgs.foldl (MonitorWsOut.step expected watch) ⟨[], false, false⟩ := rfl
  constructor
  · simp only [monitor_websocket_for_node_output, hrun]
    rcases Bool.eq_false_or_eq_true
      (msgs.foldl (MonitorWsOut.step expected watch) ⟨[], false, false⟩).doneSet
      with hd | hd
    · rw [if_pos hd]
      exact (hinv.2 hd).1
    · rw [if_neg (by simp [hd])]
      simp
  · intro hd
    rw [hrun] at hd
    simp only [monitor_websocket_for_node_output, hrun]
    rw [if_neg (by simp [hd])]

/-- C10 amended witness: a run with one matching dict-payload executed
frame returns at most one key, and a run with no completion signal
returns the empty mapping. -/
theorem ws_monitor_at_most_one_key_witness :
    (monitor_websocket_for_node_output "p1" ["A", "B"]
        [.text (execMsg "A" (Json.obj [("images", Json.arr [artifactX])])),
          .text (execMsg "B" (Json.obj []))]).length ≤ 1 ∧
      ((MonitorWsOut.run "p1" ["A", "B"]
          [.text (execMsg "C" (Json.obj []))]).doneSet = false →
        monitor_websocket_for_node_output "p1" ["A", "B"]
          [.text (execMsg "C" (Json.obj []))] = []) := by
  constructor
  · exact (ws_monitor_at_most_one_key "p1" ["A", "B"]
      [.text (execMsg "A" (Json.obj [("images", Json.arr [artifactX])])),
        .text (execMsg "B" (Json.obj []))]
      (by intro m hm
          rcases List.mem_cons.mp hm with h | h
          · subst h; rfl
          · rcases List.mem_singleton.mp h with h2
            subst h2; rfl)).1
  · exact (ws_monitor_at_most_one_key "p1" ["A", "B"]
      [.text (execMsg "C" (Json.obj []))]
      (by intro m hm
          rcases List.mem_singleton.mp hm with h
          subst h; rfl)).2

/-- C1 witness: for a concrete run the tracker returns exactly the
direct history poll result. -/
theorem track_resolves_via_history_witness :
    monitor_until_nodes_ready cfg16 [] (.success 200 historyBody16)
        = get_node_outputs_from_history "p1" ["16"]
            (.success 200 historyBody16) ∧
      monitor_until_nodes_ready cfg16 [] (.success 200 historyBody16)
        ⊆ get_node_outputs_from_history "p1" ["16"]
            (.success 200 historyBody16) :=
  track_resolves_via_history cfg16 [] (.success 200 historyBody16)
